import Mathlib

/-!
Shallow embedding of the ClipJourney backend command handlers
(src/src-tauri/src/lib.rs) and proofs about them.

Modelling conventions:
* Rust `String` / `&str` values are embedded as `List Char`.
* Byte buffers (`Vec<u8>`) are embedded as `List ℕ` with every entry `< 256`.
* Rust `f64` arithmetic (duration, interval, timestamps) is idealised as
  exact rational arithmetic over `ℚ`.
* External processes and the filesystem are oracles: a record of functions
  describes, for each invocation the code performs, what the outside world
  answers (spawn error vs. exit status, captured stdout/stderr, file bytes).
  The code under test only ever branches on these answers, so a run of a
  handler is a pure function of its oracle record.
* Fallible handlers return `Except (List Char) α`, mirroring
  `Result<α, String>`.
-/

namespace ClipJourney

/-! ## Character and string helpers -/

/-- ASCII lowercasing of one character, the fragment of Rust
`str::to_lowercase` relevant to file extensions. -/
def lowerChar (c : Char) : Char :=
  if 65 ≤ c.toNat ∧ c.toNat ≤ 90 then Char.ofNat (c.toNat + 32) else c

/-- Decimal digit character for `d < 10` (as produced by Rust `format!`). -/
def digitChar (d : ℕ) : Char :=
  match d with
  | 0 => '0' | 1 => '1' | 2 => '2' | 3 => '3' | 4 => '4'
  | 5 => '5' | 6 => '6' | 7 => '7' | 8 => '8' | 9 => '9'
  | _ => '*'

/-- Fuel-driven decimal rendering of a natural number, most significant
digit first. -/
def natToCharsAux : ℕ → ℕ → List Char
  | 0, _ => []
  | fuel + 1, n =>
      if n < 10 then [digitChar n]
      else natToCharsAux fuel (n / 10) ++ [digitChar (n % 10)]

/-- Decimal rendering of a natural number, as Rust `format!("{}", n)`. -/
def natToChars (n : ℕ) : List Char :=
  natToCharsAux (n + 1) n

/-- Value of a digit string (inverse of `natToChars`). -/
def charsVal (l : List Char) : ℕ :=
  l.foldl (fun a c => 10 * a + (c.toNat - 48)) 0

/-- Split a character list at every occurrence of `sep`, like Rust
`str::split(sep)`: always returns at least one (possibly empty) segment. -/
def splitOnChar (sep : Char) : List Char → List (List Char)
  | [] => [[]]
  | c :: rest =>
      match splitOnChar sep rest with
      | [] => [[]]
      | s :: ss => if c = sep then [] :: s :: ss else (c :: s) :: ss

/-- ASCII whitespace test (the fragment of Rust `str::trim` relevant to
tool output). -/
def isSpaceCh (c : Char) : Bool :=
  c = ' ' || c = '\t' || c = '\n' || c = '\r'

/-- Digit test. -/
def isDigitCh (c : Char) : Bool :=
  decide (48 ≤ c.toNat) && decide (c.toNat ≤ 57)

/-- Rust `str::trim` on a character list. -/
def trimChars (l : List Char) : List Char :=
  ((l.dropWhile isSpaceCh).reverse.dropWhile isSpaceCh).reverse

/-- Unsigned part of Rust `f64::from_str` restricted to plain decimal
numerals: `digits`, `digits.digits`, `.digits` or `digits.` (idealised to an
exact rational instead of a rounded `f64`). -/
def parseUnsigned (l : List Char) : Option ℚ :=
  match splitOnChar '.' l with
  | [a] =>
      if a ≠ [] ∧ a.all isDigitCh then some (charsVal a) else none
  | [a, b] =>
      if (a ≠ [] ∨ b ≠ []) ∧ a.all isDigitCh ∧ b.all isDigitCh then
        some ((charsVal a : ℚ) + (charsVal b : ℚ) / (10 : ℚ) ^ b.length)
      else none
  | _ => none

/-- Rust `f64::from_str` on the decimal-numeral fragment: an optional sign
followed by a decimal numeral.  Anything else (empty input, stray letters,
several dots) is a parse failure. -/
def parseDecimal : List Char → Option ℚ
  | '-' :: rest => (parseUnsigned rest).map (fun q => -q)
  | '+' :: rest => parseUnsigned rest
  | l => parseUnsigned l

/-! ## Extension and MIME handling (`read_image_as_base64`, lines 74-81) -/

/-- The candidate extension the code computes:
`image_path.split('.').last().unwrap_or("jpg").to_lowercase()`.
Rust `split` always yields at least one segment, so the `unwrap_or`
default is unreachable; when the path has no `'.'` the whole path is the
candidate. -/
def extLower (path : List Char) : List Char :=
  ((splitOnChar '.' path).getLastD "jpg".data).map lowerChar

/-- The MIME literal chosen by the `match ext.as_str()` table. -/
def mimeType (path : List Char) : List Char :=
  if extLower path = "png".data then "image/png".data
  else if extLower path = "gif".data then "image/gif".data
  else if extLower path = "bmp".data then "image/bmp".data
  else if extLower path = "webp".data then "image/webp".data
  else "image/jpeg".data

/-! ## Base64 (the `base64` crate's `STANDARD` engine: standard alphabet,
padded) -/

/-- The standard base64 alphabet. -/
def b64Alphabet : List Char :=
  "ABCDEFGHIJKLMNOPQRSTUVWXYZabcdefghijklmnopqrstuvwxyz0123456789+/".data

/-- Alphabet character of a 6-bit group. -/
def b64CharOf (k : ℕ) : Char :=
  b64Alphabet.getD k 'A'

/-- Position of a character in the alphabet (used by the decoder). -/
def b64IndexAux : List Char → ℕ → Char → Option ℕ
  | [], _, _ => none
  | a :: rest, k, c => if a = c then some k else b64IndexAux rest (k + 1) c

/-- Index of a character in the standard alphabet, `none` for characters
outside it. -/
def b64Index (c : Char) : Option ℕ :=
  b64IndexAux b64Alphabet 0 c

/-- Standard padded base64 encoding of a byte list, as produced by
`general_purpose::STANDARD.encode`. -/
def b64Encode : List ℕ → List Char
  | b1 :: b2 :: b3 :: rest =>
      b64CharOf (b1 / 4) ::
      b64CharOf (b1 % 4 * 16 + b2 / 16) ::
      b64CharOf (b2 % 16 * 4 + b3 / 64) ::
      b64CharOf (b3 % 64) ::
      b64Encode rest
  | [b1, b2] =>
      [b64CharOf (b1 / 4), b64CharOf (b1 % 4 * 16 + b2 / 16),
       b64CharOf (b2 % 16 * 4), '=']
  | [b1] =>
      [b64CharOf (b1 / 4), b64CharOf (b1 % 4 * 16), '=', '=']
  | [] => []

/-- Standard padded base64 decoding (the spec's round-trip partner of
`b64Encode`; the repository itself never decodes). -/
def b64Decode : List Char → Option (List ℕ)
  | c1 :: c2 :: c3 :: c4 :: rest =>
      match b64Index c1 with
      | none => none
      | some e1 =>
        match b64Index c2 with
        | none => none
        | some e2 =>
          if c3 = '=' then
            if c4 = '=' ∧ rest = [] then some [e1 * 4 + e2 / 16] else none
          else
            match b64Index c3 with
            | none => none
            | some e3 =>
              if c4 = '=' then
                if rest = [] then
                  some [e1 * 4 + e2 / 16, e2 % 16 * 16 + e3 / 4]
                else none
              else
                match b64Index c4 with
                | none => none
                | some e4 =>
                  match b64Decode rest with
                  | none => none
                  | some tail =>
                      some ((e1 * 4 + e2 / 16) ::
                            (e2 % 16 * 16 + e3 / 4) ::
                            (e3 % 4 * 64 + e4) :: tail)
  | [] => some []
  | _ => none

/-- Data-URI wrapper used for generated thumbnails:
`format!("data:image/jpeg;base64,{}", b64)`. -/
def dataUriJpeg (bytes : List ℕ) : List Char :=
  "data:image/jpeg;base64,".data ++ b64Encode bytes

/-! ## `get_video_duration` (lines 13-29)

The handler spawns `ffprobe`, ignores its exit status, and parses the
trimmed stdout as an `f64`.  The oracle records the spawn outcome: a spawn
error message, or the captured stdout. -/

structure DurEnv where
  spawn : Except (List Char) (List Char)

/-- Model of `get_video_duration`: spawn `ffprobe`; on spawn failure return
the formatted error; otherwise parse the trimmed stdout, failing with the
parse error message; on success return the parsed duration. -/
def get_video_duration (env : DurEnv) : Except (List Char) ℚ :=
  match env.spawn with
  | .error e => .error ("Failed to execute ffprobe: ".data ++ e)
  | .ok stdout =>
      match parseDecimal (trimChars stdout) with
      | none => .error "Failed to parse duration: invalid float literal".data
      | some d => .ok d

/-! ## `read_image_as_base64` (lines 68-84) -/

structure ImgEnv where
  read : Except (List Char) (List ℕ)

/-- Model of `read_image_as_base64`: read the file, base64-encode the
bytes, pick the MIME literal from the extension table, and wrap both in a
data URI. -/
def read_image_as_base64 (env : ImgEnv) (image_path : List Char) :
    Except (List Char) (List Char) :=
  match env.read with
  | .error e => .error ("Failed to read image: ".data ++ e)
  | .ok image_data =>
      .ok ("data:".data ++ mimeType image_path ++ ";base64,".data ++
           b64Encode image_data)

/-! ## `generate_thumbnail` (lines 31-65)

Oracle fields: the clock second observed for the temp-file name, the
`ffmpeg` spawn outcome (spawn error, or exit-status success flag), whether
`ffmpeg` left an output file behind, the captured stderr, and the
`fs::read` outcome.  Each run returns the handler's result together with
the list of temporary paths still existing when it returns (the code's
`fs::remove_file` is the only deletion). -/

structure ThumbEnv where
  secs : ℕ
  spawn : Except (List Char) Bool
  writes : Bool
  stderr : List Char
  readF : Except (List Char) (List ℕ)

/-- Temp-file name `format!("thumb_{}.jpg", secs)`. -/
def thumbTempName (secs : ℕ) : List Char :=
  "thumb_".data ++ natToChars secs ++ ".jpg".data

/-- Model of `generate_thumbnail`.  Second component: temporary paths that
still exist when the handler returns. -/
def generate_thumbnail (env : ThumbEnv) (_video_path : List Char) :
    Except (List Char) (List Char) × List (List Char) :=
  let temp_path := thumbTempName env.secs
  match env.spawn with
  | .error e => (.error ("Failed to execute ffmpeg: ".data ++ e), [])
  | .ok exitOk =>
      let leftover := if env.writes then [temp_path] else []
      if exitOk then
        match env.readF with
        | .error e =>
            (.error ("Failed to read thumbnail: ".data ++ e), leftover)
        | .ok image_data =>
            (.ok (dataUriJpeg image_data), [])
      else
        (.error ("FFmpeg error: ".data ++ env.stderr), leftover)

/-! ## `generate_timeline_thumbnails` (lines 87-141) -/

/-- Oracle for one timeline run.  `ffmpeg i ts` is the outcome of spawning
the transcoder for attempt `i` at seek offset `ts`: a spawn-error message,
or the exit-status success flag.  `secs i` is the clock second observed
when attempt `i` builds its temp-file name, `writes i` tells whether the
transcoder left an output file, and `readF i` is the `fs::read` outcome
for attempt `i`. -/
structure TimelineEnv where
  probe : Except (List Char) (List Char)
  secs : ℕ → ℕ
  ffmpeg : ℕ → ℚ → Except (List Char) Bool
  writes : ℕ → Bool
  readF : ℕ → Option (List ℕ)

/-- Temp-file name `format!("timeline_thumb_{}_{}.jpg", secs, i)`.  Paths
are relative to the OS temp directory; the `temp_dir.join` prefix is common
to every attempt, so it is dropped, and the prefixed path is assumed valid
UTF-8 (the `ok_or("Invalid temp path")` arm is unreachable then). -/
def timelineTempName (secs i : ℕ) : List Char :=
  "timeline_thumb_".data ++
    (natToChars secs ++ ('_' :: (natToChars i ++ ".jpg".data)))

/-- The temp path attempt `i` of a run uses. -/
def attemptTempPath (env : TimelineEnv) (i : ℕ) : List Char :=
  timelineTempName (env.secs i) i

/-- The scheduler of lines 106-109: `interval = duration / count`,
`timestamp(i) = i as f64 * interval` for `i in 0..count` (idealised over
`ℚ`). -/
def timestamps (duration : ℚ) (count : ℕ) : List ℚ :=
  (List.range count).map (fun (i : ℕ) => (i : ℚ) * (duration / (count : ℚ)))

/-- The loop body of lines 108-138, iterated over the remaining attempt
indices.  `thumbs` and `leftover` accumulate the pushed data URIs and the
temporary paths still existing.  A spawn error aborts the whole run via
`?`; a nonzero exit `continue`s without reaching the `remove_file` call
(so a file the transcoder wrote survives); after a zero exit the file is
read (a failed read is silently skipped) and then removed. -/
def runAttempts (env : TimelineEnv) (interval : ℚ) :
    List ℕ → List (List Char) → List (List Char) →
    Except (List Char) (List (List Char)) × List (List Char)
  | [], thumbs, leftover => (.ok thumbs, leftover)
  | i :: rest, thumbs, leftover =>
      match env.ffmpeg i ((i : ℚ) * interval) with
      | .error e =>
          (.error ("Failed to generate thumbnail ".data ++ natToChars i ++
                   ": ".data ++ e), leftover)
      | .ok exitOk =>
          if exitOk then
            let thumbs' :=
              match env.readF i with
              | some image_data => thumbs ++ [dataUriJpeg image_data]
              | none => thumbs
            runAttempts env interval rest thumbs' leftover
          else
            runAttempts env interval rest thumbs
              (leftover ++
                (if env.writes i then [attemptTempPath env i] else []))

/-- Model of `generate_timeline_thumbnails`: probe the duration (spawn
error or unparseable stdout abort the run), compute `interval`, then run
the per-timestamp loop over `0..count`.  Second component: temporary paths
still existing when the handler returns.  (With `count = 0` the Rust
division yields `inf`; here it yields `0`—in both cases the value is never
read because the loop body never runs.) -/
def generate_timeline_thumbnails (env : TimelineEnv) (_video_path : List Char)
    (count : ℕ) :
    Except (List Char) (List (List Char)) × List (List Char) :=
  match env.probe with
  | .error e => (.error ("Failed to get duration: ".data ++ e), [])
  | .ok stdout =>
      match parseDecimal (trimChars stdout) with
      | none => (.error "Failed to parse duration: invalid float literal".data, [])
      | some duration =>
          let interval := duration / (count : ℚ)
          runAttempts env interval (List.range count) [] []

/-- The data URI attempt `i` contributes, if any: an item is pushed exactly
when the transcoder exits zero and the output file is readable. -/
def itemOf (env : TimelineEnv) (interval : ℚ) (i : ℕ) : Option (List Char) :=
  match env.ffmpeg i ((i : ℚ) * interval), env.readF i with
  | .ok true, some image_data => some (dataUriJpeg image_data)
  | _, _ => none

/-- The temp path attempt `i` leaks, if any: exactly when the transcoder
exits nonzero after writing its output file. -/
def leakOf (env : TimelineEnv) (interval : ℚ) (i : ℕ) : Option (List Char) :=
  match env.ffmpeg i ((i : ℚ) * interval) with
  | .ok false => if env.writes i then some (attemptTempPath env i) else none
  | _ => none

/-! ## `exclude_file` (lines 144-162)

The filesystem is a pair of path lists.  `create_dir_all` is modelled as
always succeeding (idempotent), `fs::rename` as succeeding exactly when
the source path exists; its OS error text is fixed to the usual
missing-source message.  Paths are modelled for the claim's shape:
absolute slash-separated paths without a trailing slash. -/

structure FS where
  files : List (List Char)
  dirs : List (List Char)
deriving DecidableEq

/-- `Path::parent`: all slash-separated segments but the last, re-joined;
`none` when the path has no separator. -/
def pathParent (p : List Char) : Option (List Char) :=
  match (splitOnChar '/' p).dropLast with
  | [] => none
  | segs => some (List.intercalate ['/'] segs)

/-- `Path::file_name`: the last slash-separated segment; `none` when it is
empty. -/
def pathFileName (p : List Char) : Option (List Char) :=
  match (splitOnChar '/' p).getLast? with
  | some [] => none
  | some name => some name
  | none => none

/-- Model of `exclude_file`: compute parent and file name, create the
sibling `Excluded` directory, rename the file into it, and return the new
path. -/
def exclude_file (fs : FS) (file_path : List Char) :
    Except (List Char) (List Char) × FS :=
  match pathParent file_path with
  | none => (.error "No parent directory".data, fs)
  | some parent =>
      match pathFileName file_path with
      | none => (.error "No filename".data, fs)
      | some filename =>
          let excluded_folder := parent ++ ('/' :: "Excluded".data)
          let fs1 : FS :=
            { fs with
              dirs := if excluded_folder ∈ fs.dirs then fs.dirs
                      else excluded_folder :: fs.dirs }
          let new_path := excluded_folder ++ ('/' :: filename)
          if file_path ∈ fs1.files then
            (.ok new_path,
             { fs1 with files := new_path :: fs1.files.erase file_path })
          else
            (.error "Failed to move file: No such file or directory (os error 2)".data,
             fs1)

/-! ## Concrete oracle records used in counterexamples and witnesses -/

/-- A world where the probe prints `10` and every transcoder call succeeds
but leaves no readable file. -/
def envC1ok : TimelineEnv :=
  { probe := .ok "10".data, secs := fun _ => 0,
    ffmpeg := fun _ _ => .ok true, writes := fun _ => true,
    readF := fun _ => none }

/-- The same world, except the probe cannot be spawned. -/
def envC1err : TimelineEnv :=
  { envC1ok with probe := .error "ffprobe missing".data }

/-- A world where the probe prints `10` and the transcoder binary cannot be
spawned at all. -/
def envC2bad : TimelineEnv :=
  { probe := .ok "10".data, secs := fun _ => 0,
    ffmpeg := fun _ _ => .error "No such file or directory (os error 2)".data,
    writes := fun _ => false, readF := fun _ => none }

/-- A fully successful world: probe prints `10`, every transcoder call
exits zero and leaves readable bytes. -/
def envC2ok : TimelineEnv :=
  { probe := .ok "10".data, secs := fun _ => 0,
    ffmpeg := fun _ _ => .ok true, writes := fun _ => true,
    readF := fun _ => some [1, 2, 3] }

/-- A world where the transcoder exits nonzero after writing a partial
output file. -/
def envC3leak : TimelineEnv :=
  { probe := .ok "10".data, secs := fun _ => 111,
    ffmpeg := fun _ _ => .ok false, writes := fun _ => true,
    readF := fun _ => none }

/-- A single-thumbnail world where `ffmpeg` exits nonzero after writing a
partial output file. -/
def envC3thumb : ThumbEnv :=
  { secs := 222, spawn := .ok false, writes := true,
    stderr := "boom".data, readF := .error "gone".data }

/-- A world where the transcoder fails (exits nonzero) exactly at attempt 1. -/
def envC4w : TimelineEnv :=
  { probe := .ok "10".data, secs := fun _ => 0,
    ffmpeg := fun i _ => .ok (i != 1), writes := fun _ => false,
    readF := fun _ => some [9] }

/-- A probe whose stdout is `-1`. -/
def envC6neg : DurEnv :=
  { spawn := .ok "-1".data }

/-- A probe whose stdout is `3`. -/
def envC6w : DurEnv :=
  { spawn := .ok "3".data }

/-- One invocation observing clock second 100. -/
def envC7a : TimelineEnv :=
  { probe := .ok "10".data, secs := fun _ => 100,
    ffmpeg := fun _ _ => .ok true, writes := fun _ => true,
    readF := fun _ => some [1] }

/-- A different invocation (different probe answer) also observing clock
second 100. -/
def envC7b : TimelineEnv :=
  { envC7a with probe := .ok "20".data }

/-- An image file whose bytes are `[1, 2, 3]`. -/
def envC8png : ImgEnv :=
  { read := .ok [1, 2, 3] }

/-- An image file whose bytes are `[77, 0, 255]`. -/
def envC8w : ImgEnv :=
  { read := .ok [77, 0, 255] }

/-- The filesystem of the C9 scenario: `/a/b/video.mp4` exists, and the
`Excluded` directory does not. -/
def fsC9 : FS :=
  { files := ["/a/b/video.mp4".data], dirs := ["/a/b".data] }

/-! ## Lemmas about decimal rendering -/

theorem digitChar_val {d : ℕ} (h : d < 10) : (digitChar d).toNat - 48 = d := by
  interval_cases d <;> decide

theorem charsVal_append_singleton (l : List Char) (c : Char) :
    charsVal (l ++ [c]) = 10 * charsVal l + (c.toNat - 48) := by
  unfold charsVal
  rw [List.foldl_append]
  rfl

theorem charsVal_natToCharsAux :
    ∀ fuel n, n < fuel → charsVal (natToCharsAux fuel n) = n := by
  intro fuel
  induction fuel with
  | zero => omega
  | succ f ih =>
      intro n hn
      unfold natToCharsAux
      by_cases h10 : n < 10
      · simp only [if_pos h10]
        have : charsVal [digitChar n] = (digitChar n).toNat - 48 := by
          unfold charsVal
          simp
        rw [this, digitChar_val h10]
      · simp only [if_neg h10]
        rw [charsVal_append_singleton]
        have hdiv : n / 10 < f := by omega
        rw [ih (n / 10) hdiv, digitChar_val (Nat.mod_lt n (by omega))]
        omega

theorem charsVal_natToChars (n : ℕ) : charsVal (natToChars n) = n :=
  charsVal_natToCharsAux (n + 1) n (Nat.lt_succ_self n)

theorem natToChars_injective {a b : ℕ} (h : natToChars a = natToChars b) :
    a = b := by
  have := charsVal_natToChars a
  rw [h, charsVal_natToChars] at this
  omega

theorem digitChar_mem_digits {d : ℕ} (h : d < 10) :
    digitChar d ∈ ['0', '1', '2', '3', '4', '5', '6', '7', '8', '9'] := by
  interval_cases d <;> decide

theorem natToCharsAux_digits :
    ∀ fuel n c, c ∈ natToCharsAux fuel n →
      c ∈ ['0', '1', '2', '3', '4', '5', '6', '7', '8', '9'] := by
  intro fuel
  induction fuel with
  | zero => intro n c hc; simp [natToCharsAux] at hc
  | succ f ih =>
      intro n c hc
      unfold natToCharsAux at hc
      by_cases h10 : n < 10
      · simp only [if_pos h10, List.mem_singleton] at hc
        exact hc ▸ digitChar_mem_digits h10
      · simp only [if_neg h10, List.mem_append, List.mem_singleton] at hc
        rcases hc with hc | hc
        · exact ih (n / 10) c hc
        · exact hc ▸ digitChar_mem_digits (Nat.mod_lt n (by omega))

theorem underscore_not_mem_natToChars (n : ℕ) : '_' ∉ natToChars n := by
  intro h
  have := natToCharsAux_digits (n + 1) n '_' h
  simp at this

/-! ## Splitting an appended list at a distinguished separator -/

theorem sep_split_unique {α : Type} (sep : α) :
    ∀ (a b t u : List α), sep ∉ a → sep ∉ b →
      a ++ sep :: t = b ++ sep :: u → a = b ∧ t = u := by
  intro a
  induction a with
  | nil =>
      intro b t u _ hb h
      cases b with
      | nil => simpa using h
      | cons x xs =>
          simp only [List.nil_append, List.cons_append, List.cons.injEq] at h
          exact absurd (h.1 ▸ List.mem_cons_self x xs) hb
  | cons x xs ih =>
      intro b t u ha hb h
      cases b with
      | nil =>
          simp only [List.cons_append, List.nil_append, List.cons.injEq] at h
          exact absurd (h.1 ▸ List.mem_cons_self x xs) (h.1 ▸ ha)
      | cons y ys =>
          simp only [List.cons_append, List.cons.injEq] at h
          obtain ⟨rfl, h2⟩ := h
          have := ih ys t u (fun hm => ha (List.mem_cons_of_mem _ hm))
            (fun hm => hb (List.mem_cons_of_mem _ hm)) h2
          exact ⟨by rw [this.1], this.2⟩

/-! ## Temp-name uniqueness within one invocation -/

theorem timelineTempName_inj_index {s1 s2 i j : ℕ}
    (h : timelineTempName s1 i = timelineTempName s2 j) : i = j := by
  unfold timelineTempName at h
  have h1 := List.append_cancel_left h
  have h2 := sep_split_unique '_' _ _ _ _
    (underscore_not_mem_natToChars s1) (underscore_not_mem_natToChars s2) h1
  exact natToChars_injective (List.append_cancel_right h2.2)

/-! ## Base64 lemmas -/

theorem b64Index_b64CharOf : ∀ k, k < 64 → b64Index (b64CharOf k) = some k := by
  decide

theorem b64CharOf_ne_pad : ∀ k, k < 64 → b64CharOf k ≠ '=' := by
  decide

/-- Decoding inverts encoding on genuine byte lists. -/
theorem b64_roundtrip :
    ∀ bs : List ℕ, (∀ b ∈ bs, b < 256) → b64Decode (b64Encode bs) = some bs := by
  intro bs
  induction bs using b64Encode.induct with
  | case1 b1 b2 b3 rest ih =>
      intro h
      have hb1 : b1 < 256 := h b1 (by simp)
      have hb2 : b2 < 256 := h b2 (by simp)
      have hb3 : b3 < 256 := h b3 (by simp)
      have hrest : ∀ b ∈ rest, b < 256 := fun b hb => h b (by simp [hb])
      have i1 := b64Index_b64CharOf (b1 / 4) (by omega)
      have i2 := b64Index_b64CharOf (b1 % 4 * 16 + b2 / 16) (by omega)
      have i3 := b64Index_b64CharOf (b2 % 16 * 4 + b3 / 64) (by omega)
      have i4 := b64Index_b64CharOf (b3 % 64) (by omega)
      have n3 := b64CharOf_ne_pad (b2 % 16 * 4 + b3 / 64) (by omega)
      have n4 := b64CharOf_ne_pad (b3 % 64) (by omega)
      rw [b64Encode, b64Decode]
      simp only [i1, i2, i3, i4, if_neg n3, if_neg n4, ih hrest]
      have e1 : b1 / 4 * 4 + (b1 % 4 * 16 + b2 / 16) / 16 = b1 := by omega
      have e2 : (b1 % 4 * 16 + b2 / 16) % 16 * 16 +
          (b2 % 16 * 4 + b3 / 64) / 4 = b2 := by omega
      have e3 : (b2 % 16 * 4 + b3 / 64) % 4 * 64 + b3 % 64 = b3 := by omega
      rw [e1, e2, e3]
  | case2 b1 b2 =>
      intro h
      have hb1 : b1 < 256 := h b1 (by simp)
      have hb2 : b2 < 256 := h b2 (by simp)
      have i1 := b64Index_b64CharOf (b1 / 4) (by omega)
      have i2 := b64Index_b64CharOf (b1 % 4 * 16 + b2 / 16) (by omega)
      have i3 := b64Index_b64CharOf (b2 % 16 * 4) (by omega)
      have n3 := b64CharOf_ne_pad (b2 % 16 * 4) (by omega)
      rw [b64Encode, b64Decode]
      simp only [i1, i2, i3, if_neg n3, if_pos rfl, and_self, if_true]
      have e1 : b1 / 4 * 4 + (b1 % 4 * 16 + b2 / 16) / 16 = b1 := by omega
      have e2 : (b1 % 4 * 16 + b2 / 16) % 16 * 16 + b2 % 16 * 4 / 4 = b2 := by
        omega
      simp [e1, e2]
      omega
  | case3 b1 =>
      intro h
      have hb1 : b1 < 256 := h b1 (by simp)
      have i1 := b64Index_b64CharOf (b1 / 4) (by omega)
      have i2 := b64Index_b64CharOf (b1 % 4 * 16) (by omega)
      rw [b64Encode, b64Decode]
      simp only [i1, i2, if_pos rfl, and_self, if_true]
      have e1 : b1 / 4 * 4 + b1 % 4 * 16 / 16 = b1 := by omega
      simp [e1]
      omega
  | case4 =>
      intro _
      rfl

/-! ## Lowercasing lemmas -/

theorem lowerChar_toNat_of_upper {c : Char}
    (h : 65 ≤ c.toNat ∧ c.toNat ≤ 90) :
    (lowerChar c).toNat = c.toNat + 32 := by
  unfold lowerChar
  rw [if_pos h]
  obtain ⟨h1, h2⟩ := h
  set k := c.toNat with hk
  interval_cases k <;> decide

theorem lowerChar_eq_self_of_not_upper {c : Char}
    (h : ¬(65 ≤ c.toNat ∧ c.toNat ≤ 90)) : lowerChar c = c := by
  unfold lowerChar
  rw [if_neg h]

theorem lowerChar_dot_iff {c : Char} : lowerChar c = '.' ↔ c = '.' := by
  constructor
  · intro h
    by_cases hu : 65 ≤ c.toNat ∧ c.toNat ≤ 90
    · have ht := lowerChar_toNat_of_upper hu
      rw [h] at ht
      simp at ht
      omega
    · rwa [lowerChar_eq_self_of_not_upper hu] at h
  · intro h
    rw [h]
    decide

theorem lowerChar_idem (c : Char) : lowerChar (lowerChar c) = lowerChar c := by
  by_cases h : 65 ≤ c.toNat ∧ c.toNat ≤ 90
  · have ht := lowerChar_toNat_of_upper h
    exact lowerChar_eq_self_of_not_upper (by omega)
  · rw [lowerChar_eq_self_of_not_upper h]
    exact lowerChar_eq_self_of_not_upper h

/-! ## Splitting and the extension table -/

theorem splitOnChar_ne_nil (sep : Char) : ∀ l, splitOnChar sep l ≠ [] := by
  intro l
  cases l with
  | nil => simp [splitOnChar]
  | cons c rest =>
      unfold splitOnChar
      cases splitOnChar sep rest with
      | nil => simp
      | cons s ss =>
          by_cases h : c = sep <;> simp [h]

theorem splitOnChar_map_lowerChar :
    ∀ l, splitOnChar '.' (l.map lowerChar) =
      (splitOnChar '.' l).map (List.map lowerChar) := by
  intro l
  induction l with
  | nil => rfl
  | cons c rest ih =>
      simp only [List.map_cons]
      unfold splitOnChar
      rw [ih]
      have hne := splitOnChar_ne_nil '.' rest
      cases hs : splitOnChar '.' rest with
      | nil => exact absurd hs hne
      | cons s ss =>
          simp only [List.map_cons]
          by_cases h : c = '.'
          · rw [if_pos h, if_pos (lowerChar_dot_iff.mpr h)]
            simp
          · rw [if_neg h, if_neg (fun hd => h (lowerChar_dot_iff.mp hd))]
            simp

theorem getLastD_default_irrel {α : Type} (l : List α) (h : l ≠ []) (d1 d2 : α) :
    l.getLastD d1 = l.getLastD d2 := by
  cases l with
  | nil => exact absurd rfl h
  | cons x xs => rw [List.getLastD_cons, List.getLastD_cons]

theorem map_getLastD {α β : Type} (f : α → β) :
    ∀ (l : List α) (a : α), (l.map f).getLastD (f a) = f (l.getLastD a) := by
  intro l
  induction l with
  | nil => intro a; rfl
  | cons x xs ih => intro a; simp only [List.map_cons, List.getLastD_cons, ih]

theorem extLower_map_lowerChar (p : List Char) :
    extLower (p.map lowerChar) = extLower p := by
  unfold extLower
  rw [splitOnChar_map_lowerChar]
  have hne := splitOnChar_ne_nil '.' p
  cases hs : splitOnChar '.' p with
  | nil => exact absurd hs hne
  | cons s ss =>
      simp only [List.map_cons, List.getLastD_cons]
      rw [map_getLastD]
      rw [List.map_map]
      have : lowerChar ∘ lowerChar = lowerChar := funext lowerChar_idem
      rw [this]

theorem mimeType_map_lowerChar (p : List Char) :
    mimeType (p.map lowerChar) = mimeType p := by
  unfold mimeType
  rw [extLower_map_lowerChar]

/-! ## Scheduler lemmas -/

theorem timestamps_length (D : ℚ) (N : ℕ) : (timestamps D N).length = N := by
  rw [timestamps, List.length_map, List.length_range]

theorem timestamps_head (D : ℚ) {N : ℕ} (hN : 1 ≤ N) :
    (timestamps D N).head? = some 0 := by
  obtain ⟨m, rfl⟩ : ∃ m, N = m + 1 := ⟨N - 1, by omega⟩
  rw [timestamps, List.range_succ_eq_map]
  simp

theorem timestamps_pairwise_lt {D : ℚ} (N : ℕ) (hD : 0 < D) :
    (timestamps D N).Pairwise (· < ·) := by
  cases N with
  | zero => simp [timestamps]
  | succ m =>
      rw [timestamps]
      have hNQ : (0 : ℚ) < ((m + 1 : ℕ) : ℚ) := by positivity
      have hpos : 0 < D / ((m + 1 : ℕ) : ℚ) := div_pos hD hNQ
      refine List.Pairwise.map _ ?_ (List.pairwise_lt_range (m + 1))
      intro a b hab
      exact mul_lt_mul_of_pos_right (by exact_mod_cast hab) hpos

theorem timestamps_pairwise_le {D : ℚ} (N : ℕ) (hD : 0 ≤ D) :
    (timestamps D N).Pairwise (· ≤ ·) := by
  cases N with
  | zero => simp [timestamps]
  | succ m =>
      rw [timestamps]
      have hNQ : (0 : ℚ) < ((m + 1 : ℕ) : ℚ) := by positivity
      have hpos : 0 ≤ D / ((m + 1 : ℕ) : ℚ) := div_nonneg hD (le_of_lt hNQ)
      refine List.Pairwise.map _ ?_ (List.pairwise_lt_range (m + 1))
      intro a b hab
      have : (a : ℚ) ≤ (b : ℚ) := by exact_mod_cast Nat.le_of_lt hab
      exact mul_le_mul_of_nonneg_right this hpos

theorem timestamps_lt_duration {D : ℚ} (N : ℕ) (hD : 0 < D) :
    ∀ t ∈ timestamps D N, t < D := by
  intro t ht
  rw [timestamps] at ht
  obtain ⟨i, hi, rfl⟩ := List.mem_map.mp ht
  have hiN : i < N := List.mem_range.mp hi
  have hNQ : (0 : ℚ) < (N : ℚ) := by exact_mod_cast (by omega : 0 < N)
  have hpos : 0 < D / (N : ℚ) := div_pos hD hNQ
  have hcast : (i : ℚ) < (N : ℚ) := by exact_mod_cast hiN
  calc (i : ℚ) * (D / (N : ℚ)) < (N : ℚ) * (D / (N : ℚ)) :=
        mul_lt_mul_of_pos_right hcast hpos
    _ = D := by field_simp

theorem timestamps_all_zero {D : ℚ} (N : ℕ) (hD : D = 0) :
    ∀ t ∈ timestamps D N, t = 0 := by
  intro t ht
  rw [timestamps] at ht
  obtain ⟨i, _, rfl⟩ := List.mem_map.mp ht
  simp [hD]

/-! ## List counting lemma -/

theorem length_filterMap_eq {α β : Type} (f : α → Option β) :
    ∀ l : List α, (l.filterMap f).length =
      l.length - ((l.filter (fun a => (f a).isNone)).length) := by
  intro l
  induction l with
  | nil => rfl
  | cons x xs ih =>
      have hle : (xs.filter (fun a => (f a).isNone)).length ≤ xs.length :=
        List.length_filter_le _ xs
      cases hf : f x with
      | none =>
          rw [List.filterMap_cons_none hf]
          rw [List.filter_cons_of_pos (by simp [hf])]
          simp only [List.length_cons, ih]
          omega
      | some b =>
          rw [List.filterMap_cons_some hf]
          rw [List.filter_cons_of_neg (by simp [hf])]
          simp only [List.length_cons, ih]
          omega

/-! ## Characterisation of the timeline loop when every spawn succeeds -/

theorem runAttempts_ok (env : TimelineEnv) (interval : ℚ) :
    ∀ (ixs : List ℕ) (thumbs leftover : List (List Char)),
      (∀ i ∈ ixs, (env.ffmpeg i ((i : ℚ) * interval)).isOk = true) →
      runAttempts env interval ixs thumbs leftover =
        (.ok (thumbs ++ ixs.filterMap (itemOf env interval)),
         leftover ++ ixs.filterMap (leakOf env interval)) := by
  intro ixs
  induction ixs with
  | nil => intro thumbs leftover _; simp [runAttempts]
  | cons i rest ih =>
      intro thumbs leftover h
      have hi : (env.ffmpeg i ((i : ℚ) * interval)).isOk = true :=
        h i (by simp)
      have hrest : ∀ j ∈ rest, (env.ffmpeg j ((j : ℚ) * interval)).isOk = true :=
        fun j hj => h j (by simp [hj])
      rw [runAttempts]
      cases hf : env.ffmpeg i ((i : ℚ) * interval) with
      | error e =>
          rw [hf] at hi
          simp [Except.isOk, Except.toBool] at hi
      | ok exitOk =>
          cases exitOk with
          | true =>
              cases hr : env.readF i with
              | some image_data =>
                  simp [ih _ _ hrest, itemOf, leakOf, hf, hr,
                        List.filterMap_cons, List.append_assoc]
              | none =>
                  simp [ih _ _ hrest, itemOf, leakOf, hf, hr,
                        List.filterMap_cons]
          | false =>
              by_cases hw : env.writes i = true
              · simp [ih _ _ hrest, itemOf, leakOf, hf, hw,
                      List.filterMap_cons, List.append_assoc]
              · simp [ih _ _ hrest, itemOf, leakOf, hf, hw,
                      List.filterMap_cons]

/-- When the probe spawns and parses and every per-attempt transcoder spawn
succeeds, the run returns `Ok` of the items contributed by the successful
attempts, in attempt order. -/
theorem generate_ok (env : TimelineEnv) (path out : List Char) (d : ℚ) (N : ℕ)
    (h1 : env.probe = .ok out) (h2 : parseDecimal (trimChars out) = some d)
    (h3 : ∀ i ∈ List.range N,
        (env.ffmpeg i ((i : ℚ) * (d / (N : ℚ)))).isOk = true) :
    (generate_timeline_thumbnails env path N).1 =
      .ok ((List.range N).filterMap (itemOf env (d / (N : ℚ)))) := by
  simp only [generate_timeline_thumbnails, h1, h2]
  rw [runAttempts_ok env (d / (N : ℚ)) (List.range N) [] [] h3]
  simp

/-! ## Claim theorems -/

/-- C1 counterexample: with `count = 0` the operation does **not** fail
with an invalid-argument error — after a successful probe it returns `Ok`
with the empty list — and the prober **is** invoked (a probe spawn failure
changes the outcome into that spawn error). -/
theorem claim_C1_counterexample :
    (generate_timeline_thumbnails envC1ok "video.mp4".data 0).1 = .ok []
    ∧ (generate_timeline_thumbnails envC1err "video.mp4".data 0).1 =
        .error ("Failed to get duration: ffprobe missing".data) :=
  ⟨rfl, rfl⟩

/-- C1 (amended): with `count = 0` the operation still invokes the prober;
when the probe succeeds and its output parses, it returns `Ok` with the
empty list and leaves no temporary file, and the outcome depends only on
the probe answer (the transcoder is never consulted). -/
theorem claim_C1 (env : TimelineEnv) (path out : List Char) (d : ℚ)
    (h1 : env.probe = .ok out) (h2 : parseDecimal (trimChars out) = some d) :
    generate_timeline_thumbnails env path 0 = (.ok [], [])
    ∧ ∀ env2 : TimelineEnv, env2.probe = env.probe →
        generate_timeline_thumbnails env2 path 0 =
          generate_timeline_thumbnails env path 0 := by
  constructor
  · simp [generate_timeline_thumbnails, h1, h2, runAttempts]
  · intro env2 hp
    simp [generate_timeline_thumbnails, hp, h1, h2, runAttempts]

/-- C1 witness: the amended claim at the concrete world `envC1ok`. -/
theorem claim_C1_witness :
    envC1ok.probe = .ok "10".data
    ∧ parseDecimal (trimChars "10".data) = some 10
    ∧ generate_timeline_thumbnails envC1ok "video.mp4".data 0 = (.ok [], [])
    ∧ ∀ env2 : TimelineEnv, env2.probe = envC1ok.probe →
        generate_timeline_thumbnails env2 "video.mp4".data 0 =
          generate_timeline_thumbnails envC1ok "video.mp4".data 0 := by
  have hp : parseDecimal (trimChars "10".data) = some 10 := by
    simp [parseDecimal, parseUnsigned, splitOnChar, charsVal, isDigitCh,
          trimChars, isSpaceCh]
  have h := claim_C1 envC1ok "video.mp4".data "10".data 10 rfl hp
  exact ⟨rfl, hp, h.1, h.2⟩

/-- C2 counterexample: the probe succeeds (`10` parses) and the count is
valid (`1`), yet the whole request fails, because the transcoder cannot be
spawned for attempt 0 — the `?` on the spawn result aborts the run. -/
theorem claim_C2_counterexample :
    parseDecimal (trimChars "10".data) = some 10
    ∧ (generate_timeline_thumbnails envC2bad "video.mp4".data 1).1 =
        .error ("Failed to generate thumbnail 0: No such file or directory (os error 2)".data) := by
  refine ⟨?_, rfl⟩
  simp [parseDecimal, parseUnsigned, splitOnChar, charsVal, isDigitCh,
        trimChars, isSpaceCh]

/-- C2 (amended): when the probe succeeds, its output parses and every
per-attempt transcoder **spawn** succeeds, the request returns `Ok`; only a
nonzero transcoder exit or an unreadable output file skips an item, and all
`N` attempts are processed (the result is the filter-map over the whole
index range).  A transcoder spawn failure, by contrast, aborts the whole
request. -/
theorem claim_C2 (env : TimelineEnv) (path out : List Char) (d : ℚ) (N : ℕ)
    (h1 : env.probe = .ok out) (h2 : parseDecimal (trimChars out) = some d)
    (h3 : ∀ i ∈ List.range N,
        (env.ffmpeg i ((i : ℚ) * (d / (N : ℚ)))).isOk = true) :
    (generate_timeline_thumbnails env path N).1 =
      .ok ((List.range N).filterMap (itemOf env (d / (N : ℚ)))) :=
  generate_ok env path out d N h1 h2 h3

/-- C2 witness: the amended claim at the concrete world `envC2ok` with
`N = 1`. -/
theorem claim_C2_witness :
    envC2ok.probe = .ok "10".data
    ∧ parseDecimal (trimChars "10".data) = some 10
    ∧ (∀ i ∈ List.range 1,
        (envC2ok.ffmpeg i ((i : ℚ) * ((10 : ℚ) / ((1 : ℕ) : ℚ)))).isOk = true)
    ∧ (generate_timeline_thumbnails envC2ok "video.mp4".data 1).1 =
        .ok ((List.range 1).filterMap (itemOf envC2ok ((10 : ℚ) / ((1 : ℕ) : ℚ)))) := by
  have hp : parseDecimal (trimChars "10".data) = some 10 := by
    simp [parseDecimal, parseUnsigned, splitOnChar, charsVal, isDigitCh,
          trimChars, isSpaceCh]
  have h3 : ∀ i ∈ List.range 1,
      (envC2ok.ffmpeg i ((i : ℚ) * ((10 : ℚ) / ((1 : ℕ) : ℚ)))).isOk = true := by
    intro i _
    rfl
  exact ⟨rfl, hp, h3, claim_C2 envC2ok "video.mp4".data "10".data 10 1 rfl hp h3⟩

/-- C3: the code violates the cleanup claim.  In the timeline loop a
nonzero transcoder exit `continue`s before the `remove_file` call, so a
file the transcoder wrote is still on disk when the operation returns; in
`generate_thumbnail` the nonzero-exit early return likewise skips the
deletion. -/
theorem claim_C3 :
    generate_timeline_thumbnails envC3leak "video.mp4".data 1 =
      (.ok [], [timelineTempName 111 0])
    ∧ generate_thumbnail envC3thumb "video.mp4".data =
        (.error ("FFmpeg error: boom".data), [thumbTempName 222]) :=
  ⟨rfl, rfl⟩

/-- C4: when the probe succeeds and every transcoder spawn succeeds, and
exactly `K` of the `N` attempts fail (nonzero exit or unreadable file),
the result is `Ok` of the successful items in attempt order, its length is
`N - K`, and the schedule is ordered by timestamp (weakly always, strictly
for a positive duration). -/
theorem claim_C4 (env : TimelineEnv) (path out : List Char) (d : ℚ) (N K : ℕ)
    (h1 : env.probe = .ok out) (h2 : parseDecimal (trimChars out) = some d)
    (h3 : ∀ i ∈ List.range N,
        (env.ffmpeg i ((i : ℚ) * (d / (N : ℚ)))).isOk = true)
    (hd : 0 ≤ d)
    (hK : K = ((List.range N).filter
        (fun i => (itemOf env (d / (N : ℚ)) i).isNone)).length) :
    (generate_timeline_thumbnails env path N).1 =
      .ok ((List.range N).filterMap (itemOf env (d / (N : ℚ))))
    ∧ ((List.range N).filterMap (itemOf env (d / (N : ℚ)))).length = N - K
    ∧ (timestamps d N).Pairwise (· ≤ ·)
    ∧ (0 < d → (timestamps d N).Pairwise (· < ·)) := by
  refine ⟨generate_ok env path out d N h1 h2 h3, ?_,
          timestamps_pairwise_le N hd, fun h => timestamps_pairwise_lt N h⟩
  rw [length_filterMap_eq, List.length_range, hK]

/-- C4 witness: `N = 3` with exactly attempt 1 failing, so `K = 1` and the
returned sequence has length `2`. -/
theorem claim_C4_witness :
    envC4w.probe = .ok "10".data
    ∧ parseDecimal (trimChars "10".data) = some 10
    ∧ (∀ i ∈ List.range 3,
        (envC4w.ffmpeg i ((i : ℚ) * ((10 : ℚ) / ((3 : ℕ) : ℚ)))).isOk = true)
    ∧ (0 : ℚ) ≤ 10
    ∧ 1 = ((List.range 3).filter
        (fun i => (itemOf envC4w ((10 : ℚ) / ((3 : ℕ) : ℚ)) i).isNone)).length
    ∧ ((generate_timeline_thumbnails envC4w "video.mp4".data 3).1 =
        .ok ((List.range 3).filterMap (itemOf envC4w ((10 : ℚ) / ((3 : ℕ) : ℚ))))
      ∧ ((List.range 3).filterMap (itemOf envC4w ((10 : ℚ) / ((3 : ℕ) : ℚ)))).length = 3 - 1
      ∧ (timestamps 10 3).Pairwise (· ≤ ·)
      ∧ ((0 : ℚ) < 10 → (timestamps 10 3).Pairwise (· < ·))) := by
  have hp : parseDecimal (trimChars "10".data) = some 10 := by
    simp [parseDecimal, parseUnsigned, splitOnChar, charsVal, isDigitCh,
          trimChars, isSpaceCh]
  have h3 : ∀ i ∈ List.range 3,
      (envC4w.ffmpeg i ((i : ℚ) * ((10 : ℚ) / ((3 : ℕ) : ℚ)))).isOk = true := by
    intro i _
    rfl
  have hK : (1 : ℕ) = ((List.range 3).filter
      (fun i => (itemOf envC4w ((10 : ℚ) / ((3 : ℕ) : ℚ)) i).isNone)).length := by
    rfl
  exact ⟨rfl, hp, h3, by decide,
        hK, claim_C4 envC4w "video.mp4".data "10".data 10 3 1 rfl hp h3 (by decide) hK⟩

/-- C5: the scheduler produces exactly `N` timestamps `i * (D / N)`, the
first is `0`, they are strictly increasing and all below `D` when
`D > 0`, and all zero when `D = 0` (arithmetic idealised over `ℚ`). -/
theorem claim_C5 (D : ℚ) (N : ℕ) (hN : 1 ≤ N) (_hD : 0 ≤ D) :
    (timestamps D N).length = N
    ∧ (timestamps D N).head? = some 0
    ∧ (0 < D → (timestamps D N).Pairwise (· < ·))
    ∧ (0 < D → ∀ t ∈ timestamps D N, t < D)
    ∧ (D = 0 → ∀ t ∈ timestamps D N, t = 0) :=
  ⟨timestamps_length D N, timestamps_head D hN,
   fun h => timestamps_pairwise_lt N h,
   fun h => timestamps_lt_duration N h,
   fun h => timestamps_all_zero N h⟩

/-- C5 witness: the scheduler property at `D = 10`, `N = 4`. -/
theorem claim_C5_witness :
    1 ≤ 4 ∧ (0 : ℚ) ≤ 10
    ∧ ((timestamps 10 4).length = 4
      ∧ (timestamps 10 4).head? = some 0
      ∧ ((0 : ℚ) < 10 → (timestamps 10 4).Pairwise (· < ·))
      ∧ ((0 : ℚ) < 10 → ∀ t ∈ timestamps 10 4, t < 10)
      ∧ ((10 : ℚ) = 0 → ∀ t ∈ timestamps 10 4, t = 0)) :=
  ⟨by decide, by decide, claim_C5 10 4 (by decide) (by decide)⟩

/-- C6 counterexample: a probe whose stdout is `-1` makes the call succeed
with the negative duration `-1` — the claimed `≥ 0` guarantee does not
hold. -/
theorem claim_C6_counterexample :
    get_video_duration envC6neg = .ok (-1) ∧ (-1 : ℚ) < 0 := by
  constructor
  · simp [get_video_duration, envC6neg, parseDecimal, parseUnsigned,
          splitOnChar, charsVal, isDigitCh, trimChars, isSpaceCh]
  · decide

/-- C6 (amended): the probe's only failure modes are a spawn failure and a
parse failure, each returned as the call's error with no retry and no
default; on success it returns exactly the parsed value, which is **not**
guaranteed to be nonnegative. -/
theorem claim_C6 (env : DurEnv) :
    (∀ e, env.spawn = .error e →
        get_video_duration env =
          .error ("Failed to execute ffprobe: ".data ++ e))
    ∧ (∀ out, env.spawn = .ok out → parseDecimal (trimChars out) = none →
        get_video_duration env =
          .error "Failed to parse duration: invalid float literal".data)
    ∧ (∀ out d, env.spawn = .ok out → parseDecimal (trimChars out) = some d →
        get_video_duration env = .ok d) := by
  refine ⟨?_, ?_, ?_⟩
  · intro e he
    simp [get_video_duration, he]
  · intro out ho hp
    simp [get_video_duration, ho, hp]
  · intro out d ho hp
    simp [get_video_duration, ho, hp]

/-- C6 witness: the amended claim's success case at stdout `3`. -/
theorem claim_C6_witness :
    envC6w.spawn = .ok "3".data
    ∧ parseDecimal (trimChars "3".data) = some 3
    ∧ get_video_duration envC6w = .ok 3 := by
  have hp : parseDecimal (trimChars "3".data) = some 3 := by
    simp [parseDecimal, parseUnsigned, splitOnChar, charsVal, isDigitCh,
          trimChars, isSpaceCh]
  exact ⟨rfl, hp, (claim_C6 envC6w).2.2 "3".data 3 rfl hp⟩

/-- C7 counterexample: temp names derive from the clock **second** (not
high-resolution time), so two different invocations observing the same
second produce the *same* temp path for the same attempt index. -/
theorem claim_C7_counterexample :
    envC7a ≠ envC7b
    ∧ envC7a.secs 0 = envC7b.secs 0
    ∧ attemptTempPath envC7a 0 = attemptTempPath envC7b 0 := by
  refine ⟨?_, rfl, rfl⟩
  intro h
  have h2 : (Except.ok "10".data : Except (List Char) (List Char)) =
      Except.ok "20".data := congrArg TimelineEnv.probe h
  exact absurd (Except.ok.inj h2) (by decide)

/-- C7 (amended): within one invocation the `N` temp paths are pairwise
distinct — distinct attempt indices yield distinct names, whatever clock
seconds each attempt observes. -/
theorem claim_C7 (s1 s2 i j : ℕ) (hij : i ≠ j) :
    timelineTempName s1 i ≠ timelineTempName s2 j :=
  fun h => hij (timelineTempName_inj_index h)

/-- C7 witness: distinct indices at the same second give distinct names. -/
theorem claim_C7_witness :
    (0 : ℕ) ≠ 1 ∧ timelineTempName 100 0 ≠ timelineTempName 100 1 :=
  ⟨by decide, claim_C7 100 100 0 1 (by decide)⟩

/-- C8 counterexample: a path with **no** extension (no `'.'` at all) whose
name happens to be `png` is tagged `image/png`, not the claimed
`image/jpeg`: the code matches the substring after the last `'.'`, which
for a dotless path is the whole path. -/
theorem claim_C8_counterexample :
    ('.' ∉ "png".data)
    ∧ read_image_as_base64 envC8png "png".data =
        .ok "data:image/png;base64,AQID".data
    ∧ "image/png".data ≠ "image/jpeg".data :=
  ⟨by decide, rfl, by decide⟩

/-- C8 (amended): a successful read returns the data URI built from the
extension table and the standard padded base64 encoding of the bytes;
decoding the payload recovers the bytes exactly; the table maps the
lowercased candidate extension (the segment after the last `'.'`, or the
whole path when it has no `'.'`) to the four known MIME types and
everything else to `image/jpeg`. -/
theorem claim_C8 (env : ImgEnv) (path : List Char) (image_data : List ℕ)
    (h1 : env.read = .ok image_data) (h2 : ∀ b ∈ image_data, b < 256) :
    read_image_as_base64 env path =
      .ok ("data:".data ++ mimeType path ++ ";base64,".data ++
           b64Encode image_data)
    ∧ b64Decode (b64Encode image_data) = some image_data
    ∧ (extLower path = "png".data → mimeType path = "image/png".data)
    ∧ (extLower path = "gif".data → mimeType path = "image/gif".data)
    ∧ (extLower path = "bmp".data → mimeType path = "image/bmp".data)
    ∧ (extLower path = "webp".data → mimeType path = "image/webp".data)
    ∧ (extLower path ∉ [("png".data : List Char), "gif".data, "bmp".data,
          "webp".data] →
        mimeType path = "image/jpeg".data) := by
  refine ⟨?_, b64_roundtrip image_data h2, ?_, ?_, ?_, ?_, ?_⟩
  · simp [read_image_as_base64, h1]
  · intro h
    simp [mimeType, h]
  · intro h
    simp [mimeType, h]
  · intro h
    simp [mimeType, h]
  · intro h
    simp [mimeType, h]
  · intro h
    simp only [List.mem_cons, List.mem_singleton, not_or] at h
    obtain ⟨hp, hg, hb, hw, _⟩ := h
    simp [mimeType, hp, hg, hb, hw]

/-- C8 witness: the amended claim at bytes `[77, 0, 255]` and path
`photo.JPG`. -/
theorem claim_C8_witness :
    envC8w.read = .ok [77, 0, 255]
    ∧ (∀ b ∈ ([77, 0, 255] : List ℕ), b < 256)
    ∧ (read_image_as_base64 envC8w "photo.JPG".data =
        .ok ("data:".data ++ mimeType "photo.JPG".data ++ ";base64,".data ++
             b64Encode [77, 0, 255])
      ∧ b64Decode (b64Encode [77, 0, 255]) = some [77, 0, 255]
      ∧ (extLower "photo.JPG".data = "png".data →
          mimeType "photo.JPG".data = "image/png".data)
      ∧ (extLower "photo.JPG".data = "gif".data →
          mimeType "photo.JPG".data = "image/gif".data)
      ∧ (extLower "photo.JPG".data = "bmp".data →
          mimeType "photo.JPG".data = "image/bmp".data)
      ∧ (extLower "photo.JPG".data = "webp".data →
          mimeType "photo.JPG".data = "image/webp".data)
      ∧ (extLower "photo.JPG".data ∉ [("png".data : List Char), "gif".data,
            "bmp".data, "webp".data] →
          mimeType "photo.JPG".data = "image/jpeg".data)) :=
  ⟨rfl, by decide,
   claim_C8 envC8w "photo.JPG".data [77, 0, 255] rfl (by decide)⟩

/-- C9: excluding `/a/b/video.mp4` creates the sibling directory
`/a/b/Excluded`, moves the file there (the original path is gone, the new
one exists), and a second call on the same source fails with the rename
(filesystem) error because the source no longer exists. -/
theorem claim_C9 :
    (exclude_file fsC9 "/a/b/video.mp4".data).1 =
      .ok "/a/b/Excluded/video.mp4".data
    ∧ "/a/b/Excluded".data ∈ (exclude_file fsC9 "/a/b/video.mp4".data).2.dirs
    ∧ "/a/b/Excluded/video.mp4".data ∈
        (exclude_file fsC9 "/a/b/video.mp4".data).2.files
    ∧ "/a/b/video.mp4".data ∉ (exclude_file fsC9 "/a/b/video.mp4".data).2.files
    ∧ (exclude_file (exclude_file fsC9 "/a/b/video.mp4".data).2
        "/a/b/video.mp4".data).1 =
        .error "Failed to move file: No such file or directory (os error 2)".data :=
  ⟨rfl, by decide, by decide, by decide, rfl⟩

/-- C10: the extension-to-MIME lookup is case-insensitive — lowercasing a
path never changes the chosen MIME type, nor the operation's result. -/
theorem claim_C10 (env : ImgEnv) (path : List Char) :
    mimeType (path.map lowerChar) = mimeType path
    ∧ read_image_as_base64 env (path.map lowerChar) =
        read_image_as_base64 env path := by
  refine ⟨mimeType_map_lowerChar path, ?_⟩
  unfold read_image_as_base64
  cases env.read with
  | error e => rfl
  | ok image_data => rw [mimeType_map_lowerChar]

end ClipJourney
